import Mathlib

set_option maxHeartbeats 1000000

namespace HashRunner

/-! Shallow embedding of the dotcypress/hash autorun host
    (src/main.rs and src/runner.rs).

    Paths and command strings are modelled as lists of characters; file
    and stream contents as lists of byte values. External effects
    (filesystem queries, process spawning, the clock, mount events) are
    supplied through a Sys record of oracles, and every Runner operation
    returns its Except result together with the ordered list of
    observable events it performed. -/

deriving instance DecidableEq for Except

/-- File or stream contents, one natural number per byte. -/
abbrev Bytes := List Nat

/-- A filesystem path, as its character sequence. Only paths that are
    valid UTF-8 are modelled, so the to_str failure branches of the Rust
    code are absent. -/
abbrev Path := List Char

/-- The bytes of an ASCII string, used for concrete inputs. -/
def asciiBytes (s : String) : Bytes := s.toList.map (fun c => c.toNat)

/-- SCRIPT_SUFFIX from runner.rs: the distinguishing script suffix. -/
def SCRIPT_SUFFIX : List Char := ".ha.sh".toList

/-- MAX_SCRIPT_SIZE from runner.rs: the script size ceiling in bytes. -/
def MAX_SCRIPT_SIZE : Nat := 655360

/-- Error from runner.rs. The payload of the IO variant (the underlying
    io error value) is abstracted away. -/
inductive Error where
  | ioErr : Error
  | scriptNotFound : Path → Error
  | unsupportedScript : Path → Error
  | transformFailed : Error
deriving DecidableEq

/-- Display messages from the fmt Display impl for Error in runner.rs;
    the inner message of an IO error and the Debug quoting of paths are
    abstracted. -/
def Error.display : Error → List Char
  | .ioErr => "IO: error".toList
  | .transformFailed => "Transform failed".toList
  | .scriptNotFound p => "Script not found: ".toList ++ p
  | .unsupportedScript p => "Unsupported script: ".toList ++ p

/-- Worker for removeAll. The counter skips characters still covered by
    a match that was already consumed; at counter zero the pattern is
    matched against the current position, exactly as str replace finds
    leftmost non-overlapping matches. -/
def removeAllGo (pat : List Char) : List Char → Nat → List Char
  | [], _ => []
  | _ :: rest, Nat.succ k => removeAllGo pat rest k
  | c :: rest, 0 =>
    if pat ≠ [] ∧ pat <+: (c :: rest) then removeAllGo pat rest (pat.length - 1)
    else c :: removeAllGo pat rest 0

/-- The Rust str replace with an empty replacement: removes every
    leftmost non-overlapping occurrence of pat. -/
def removeAll (pat s : List Char) : List Char := removeAllGo pat s 0

/-- Tests for a UTF-8 continuation byte (0x80 to 0xBF). -/
def isCont (b : Nat) : Bool := 128 ≤ b && b ≤ 191

/-- Standard UTF-8 validity of a byte sequence, modelling the check done
    by str from_utf8 in the Rust standard library (including the
    surrogate, overlong and out-of-range exclusions). -/
def utf8Valid : Bytes → Bool
  | [] => true
  | b :: rest =>
    if b ≤ 127 then utf8Valid rest
    else if 194 ≤ b && b ≤ 223 then
      match rest with
      | b1 :: r => isCont b1 && utf8Valid r
      | [] => false
    else if b = 224 then
      match rest with
      | b1 :: b2 :: r => (160 ≤ b1 && b1 ≤ 191) && isCont b2 && utf8Valid r
      | _ => false
    else if b = 237 then
      match rest with
      | b1 :: b2 :: r => (128 ≤ b1 && b1 ≤ 159) && isCont b2 && utf8Valid r
      | _ => false
    else if 225 ≤ b && b ≤ 239 then
      match rest with
      | b1 :: b2 :: r => isCont b1 && isCont b2 && utf8Valid r
      | _ => false
    else if b = 240 then
      match rest with
      | b1 :: b2 :: b3 :: r => (144 ≤ b1 && b1 ≤ 191) && isCont b2 && isCont b3 && utf8Valid r
      | _ => false
    else if 241 ≤ b && b ≤ 243 then
      match rest with
      | b1 :: b2 :: b3 :: r => isCont b1 && isCont b2 && isCont b3 && utf8Valid r
      | _ => false
    else if b = 244 then
      match rest with
      | b1 :: b2 :: b3 :: r => (128 ≤ b1 && b1 ≤ 143) && isCont b2 && isCont b3 && utf8Valid r
      | _ => false
    else false

/-- Models str from_utf8 followed by to_owned in Runner::run: a Rust str
    is the same byte sequence as its source, so a valid sequence decodes
    to itself and an invalid one fails. -/
def utf8Decode (b : Bytes) : Option Bytes := if utf8Valid b then some b else none

/-- Path parent for the canonical absolute paths this program stores
    (no trailing separators, no trailing dot components). -/
def Path.parentOf (p : Path) : Option Path :=
  if p = "/".toList then none
  else if p.contains '/' then
    let kept := ((p.reverse.dropWhile (fun c => c != '/')).reverse).dropLast
    some (if kept = [] then "/".toList else kept)
  else none

/-- The file name component used by Script::name: the part of the path
    after the last separator. -/
def Path.fileName (p : Path) : Path := (p.reverse.takeWhile (fun c => c != '/')).reverse

/-- PathBuf push of one component onto a base path. -/
def Path.pushComp (base : Path) (comp : List Char) : Path :=
  if base.getLast? = some '/' then base ++ comp else base ++ '/' :: comp

/-- The starts-with-dot test applied by the sweep filter of
    Runner::eval_dir to each entry name. -/
def hiddenName : List Char → Bool
  | '.' :: _ => true
  | _ => false

/-- Script from runner.rs: the canonicalized path of a validated script. -/
structure Script where
  path : Path
deriving DecidableEq

/-- Outcome of spawning an external command and feeding it its standard
    input: the spawn itself may fail, the standard-input copy may fail,
    waiting may fail, or the process runs to completion with an exit
    status and captured standard output. -/
inductive SpawnResult where
  | spawnErr : SpawnResult
  | stdinErr : SpawnResult
  | waitErr : SpawnResult
  | done : Bool → Bytes → SpawnResult
deriving DecidableEq

/-- One immediate entry of a directory listing, with the subdirectory
    flag the Rust code could query but does not. -/
structure DirEntry where
  name : List Char
  isDir : Bool
deriving DecidableEq

/-- The oracles for every external effect the program performs.
    runTransform models spawning sh -c cmd with piped standard streams
    and feeding it the given input; runScriptWait models Command output
    (wait mode, capturing stdout and stderr); runScriptSpawn models
    Command spawn (fire-and-forget); now is the formatted UTC timestamp;
    mountEvents are the debounce-channel timestamps in milliseconds. -/
structure Sys where
  isFile : Path → Bool
  canonicalize : Path → Except Unit Path
  metadataLen : Path → Except Unit Nat
  readFile : Path → Except Unit Bytes
  createDir : Path → Except Unit Unit
  createFile : Path → Except Unit Unit
  readDir : Path → Except Unit (List DirEntry)
  runTransform : List Char → Bytes → SpawnResult
  runScriptWait : Bytes → List (List Char × List Char) → Path → Except Unit (Bytes × Bytes)
  runScriptSpawn : Bytes → List (List Char × List Char) → Path → Except Unit Unit
  now : List Char
  mountEvents : List Nat

/-- Observable events, in program order: directory and file creation,
    bytes appended to a created log file, a whole string written to a
    file, a transform command spawned, a shell execution of script text
    with its environment, working directory and wait flag, and a call
    into the per-script Run Director made by the Directory Sweeper. -/
inductive Event where
  | createDir : Path → Event
  | createFile : Path → Event
  | appendFile : Path → Bytes → Event
  | writeFile : Path → List Char → Event
  | transformSpawn : List Char → Event
  | shellExec : Bytes → List (List Char × List Char) → Path → Bool → Event
  | runDirector : Path → Event
deriving DecidableEq

/-- Script::from_file from runner.rs: reject a path without the suffix,
    then a path that is not an existing regular file, then canonicalize. -/
def Script.from_file (sys : Sys) (path : Path) : Except Error Script :=
  if ¬ SCRIPT_SUFFIX <:+ path then .error (.unsupportedScript path)
  else if ¬ sys.isFile path then .error (.scriptNotFound path)
  else
    match sys.canonicalize path with
    | .error _ => .error .ioErr
    | .ok p => .ok ⟨p⟩

/-- Script::parent from runner.rs. -/
def Script.parent (s : Script) : Except Error Path :=
  match Path.parentOf s.path with
  | none => .error (.scriptNotFound s.path)
  | some p => .ok p

/-- Script::name from runner.rs: the file name with every occurrence of
    the suffix removed, following the replace-all semantics of
    str replace. -/
def Script.name (s : Script) : List Char := removeAll SCRIPT_SUFFIX (Path.fileName s.path)

/-- Runner from runner.rs: the immutable per-process configuration. -/
structure Runner where
  host_id : List Char
  decoder : Option (List Char)
  encoder : Option (List Char)

/-- Runner::transform from runner.rs. The byte source is input; the sink
    holds writer before the call and the returned middle component after
    it. With no command the bytes are copied verbatim; with a command the
    process is spawned, fed the input, awaited, and only on successful
    exit is its standard output copied to the sink. -/
def Runner.transform (sys : Sys) (input writer : Bytes)
    (transformer : Option (List Char)) : Except Error Unit × Bytes × List Event :=
  match transformer with
  | none => (.ok (), writer ++ input, [])
  | some t =>
    match sys.runTransform t input with
    | .spawnErr => (.error .ioErr, writer, [])
    | .stdinErr => (.error .ioErr, writer, [.transformSpawn t])
    | .waitErr => (.error .ioErr, writer, [.transformSpawn t])
    | .done success out =>
      if success then (.ok (), writer ++ out, [.transformSpawn t])
      else (.error .transformFailed, writer, [.transformSpawn t])

/-- The stdout log file name. -/
def stdoutLogName : List Char := "stdout.log".toList

/-- The stderr log file name. -/
def stderrLogName : List Char := "stderr.log".toList

/-- The error log file name. -/
def errorLogName : List Char := "error.log".toList

/-- The marker between script name and timestamp in run directory names. -/
def runMarker : List Char := "-run-".toList

/-- The per-stream block of Runner::run in wait mode: skip an empty
    stream, otherwise create the log file in the run directory and
    stream the captured bytes through the encoder into it. -/
def Runner.writeLog (r : Runner) (sys : Sys) (run_dir : Path) (fname : List Char)
    (data : Bytes) : Except Error Unit × List Event :=
  if data = [] then (.ok (), [])
  else
    let p := Path.pushComp run_dir fname
    match sys.createFile p with
    | .error _ => (.error .ioErr, [])
    | .ok _ =>
      match Runner.transform sys data [] r.encoder with
      | (.error e, _, tevs) => (.error e, Event.createFile p :: tevs)
      | (.ok _, log, tevs) => (.ok (), Event.createFile p :: tevs ++ [Event.appendFile p log])

/-- The fixed environment passed to the spawned shell in Runner::run. -/
def Runner.envsFor (r : Runner) (script : Script) (run_dir : Path) :
    List (List Char × List Char) :=
  [("HASH_HOST".toList, r.host_id),
   ("HASH_DECODER".toList, r.decoder.getD []),
   ("HASH_ENCODER".toList, r.encoder.getD []),
   ("HASH_SCRIPT".toList, script.name),
   ("HASH_RUN_DIR".toList, run_dir)]

/-- The body of Runner::run after the size guard: open and decode the
    script, require UTF-8 text, then execute it through sh -c with the
    script's parent directory as the working directory, either waiting
    and persisting the captured streams or merely spawning. -/
def Runner.runAfterSizeCheck (r : Runner) (sys : Sys) (script : Script) (run_dir : Path)
    (wait : Bool) : Except Error Unit × List Event :=
  match sys.readFile script.path with
  | .error _ => (.error .ioErr, [])
  | .ok raw =>
    match Runner.transform sys raw [] r.decoder with
    | (.error e, _, devs) => (.error e, devs)
    | (.ok _, buf, devs) =>
      match utf8Decode buf with
      | none => (.error (.unsupportedScript script.path), devs)
      | some text =>
        let envs := r.envsFor script run_dir
        match script.parent with
        | .error e => (.error e, devs)
        | .ok par =>
          if wait then
            match sys.runScriptWait text envs par with
            | .error _ => (.error .ioErr, devs)
            | .ok (out, err) =>
              let base := devs ++ [Event.shellExec text envs par true]
              match r.writeLog sys run_dir stdoutLogName out with
              | (.error e, evs1) => (.error e, base ++ evs1)
              | (.ok _, evs1) =>
                match r.writeLog sys run_dir stderrLogName err with
                | (.error e, evs2) => (.error e, base ++ evs1 ++ evs2)
                | (.ok _, evs2) => (.ok (), base ++ evs1 ++ evs2)
          else
            match sys.runScriptSpawn text envs par with
            | .error _ => (.error .ioErr, devs)
            | .ok _ => (.ok (), devs ++ [Event.shellExec text envs par false])

/-- Runner::run from runner.rs: the size guard followed by the body. -/
def Runner.run (r : Runner) (sys : Sys) (script : Script) (run_dir : Path)
    (wait : Bool) : Except Error Unit × List Event :=
  match sys.metadataLen script.path with
  | .error _ => (.error .ioErr, [])
  | .ok len =>
    if len > MAX_SCRIPT_SIZE then (.error (.unsupportedScript script.path), [])
    else r.runAfterSizeCheck sys script run_dir wait

/-- Runner::eval_script from runner.rs: validate the script, create the
    timestamped run directory next to it, run the script, and on any
    failure of the run persist the diagnostic to error.log and report
    success to the caller. -/
def Runner.eval_script (r : Runner) (sys : Sys) (path : Path) (wait : Bool) :
    Except Error Unit × List Event :=
  match Script.from_file sys path with
  | .error e => (.error e, [])
  | .ok script =>
    match script.parent with
    | .error e => (.error e, [])
    | .ok par =>
      let run_dir := Path.pushComp par (script.name ++ runMarker ++ sys.now)
      match sys.createDir run_dir with
      | .error _ => (.error .ioErr, [])
      | .ok _ =>
        match r.run sys script run_dir wait with
        | (.error e, evs) =>
          (.ok (), Event.createDir run_dir :: evs
            ++ [Event.writeFile (Path.pushComp run_dir errorLogName) e.display])
        | (.ok _, evs) => (.ok (), Event.createDir run_dir :: evs)

/-- Runner::eval_dir from runner.rs: list the directory, keep every
    entry whose name does not start with a dot (subdirectories are not
    filtered), and invoke the Run Director once per kept entry; per-file
    failures are only logged and do not stop the sweep. -/
def Runner.eval_dir (r : Runner) (sys : Sys) (dir : Path) (wait : Bool) :
    Except Error Unit × List Event :=
  match sys.readDir dir with
  | .error _ => (.error .ioErr, [])
  | .ok entries =>
    let files := (entries.filter (fun e => ! hiddenName e.name)).map
      (fun e => Path.pushComp dir e.name)
    (.ok (), (files.map (fun p => Event.runDirector p :: (r.eval_script sys p wait).2)).flatten)

/-- One step of the debounce gate in Runner::start (runner.rs lines 114
    to 122). Timestamps are in milliseconds; duration_since followed by
    as_secs is the truncating division by 1000. Returns the new last
    triggering timestamp and whether a sweep is triggered; the stored
    timestamp only advances when a sweep is triggered. -/
def debounceStep : Option Nat → Nat → Option Nat × Bool
  | some l, ts => if (ts - l) / 1000 > 1 then (some ts, true) else (some l, false)
  | none, ts => (some ts, true)

/-- Number of sweeps the debounce loop of Runner::start triggers on a
    sequence of received timestamps, starting from a given last
    triggering timestamp. -/
def sweepCount : Option Nat → List Nat → Nat
  | _, [] => 0
  | last, ts :: rest =>
    match debounceStep last ts with
    | (last2, trig) => (if trig then 1 else 0) + sweepCount last2 rest

/-- The watch-mode loop of Runner::start: for each received mount-event
    timestamp, the debounce gate decides whether to sweep the watched
    directory in fire-and-forget mode; sweep results are discarded. -/
def Runner.watchLoop (r : Runner) (sys : Sys) (path : Path) :
    List Nat → Option Nat → List Event
  | [], _ => []
  | ts :: rest, last =>
    match debounceStep last ts with
    | (last2, true) => (r.eval_dir sys path false).2 ++ r.watchLoop sys path rest last2
    | (last2, false) => r.watchLoop sys path rest last2

/-- Runner::start from runner.rs (the linux variant taking the watch
    flag): a file is evaluated directly in wait mode; a directory is
    swept once in wait mode, or watched through the debounce loop. -/
def Runner.start (r : Runner) (sys : Sys) (path : Path) (watch : Bool) :
    Except Error Unit × List Event :=
  if sys.isFile path then r.eval_script sys path true
  else if watch then (.ok (), r.watchLoop sys path sys.mountEvents none)
  else
    match r.eval_dir sys path true with
    | (.error e, evs) => (.error e, evs)
    | (.ok _, evs) => (.ok (), evs)

/-- The process exit behaviour of main in main.rs: returning Err from
    main yields a non-zero exit, returning Ok yields zero. -/
def mainExitCode (res : Except Error Unit × List Event) : Nat :=
  match res.1 with
  | .ok _ => 0
  | .error _ => 1

/-- The paths handed to the Run Director, in order, within a trace. -/
def invokedPaths (evs : List Event) : List Path :=
  evs.filterMap fun e =>
    match e with
    | Event.runDirector p => some p
    | _ => none

/-- The working directories of all shell executions within a trace. -/
def shellCwds (evs : List Event) : List Path :=
  evs.filterMap fun e =>
    match e with
    | Event.shellExec _ _ c _ => some c
    | _ => none

/-- Whether the trace appends any bytes to the file at p. -/
def appendsTo (p : Path) (evs : List Event) : Bool :=
  evs.any fun e =>
    match e with
    | Event.appendFile q _ => q == p
    | _ => false

/-! Concrete systems used by the counterexamples and witnesses. -/

/-- A fixed formatted UTC timestamp. -/
def tsNow : List Char := "2026-01-01-00-00-00".toList

/-- A well-formed script path. -/
def pathT : Path := "/d/t.ha.sh".toList

/-- A script path whose file name contains the suffix twice. -/
def pathX : Path := "/d/x.ha.sh.ha.sh".toList

/-- The raw contents of the concrete scripts. -/
def rawT : Bytes := asciiBytes "echo hi"

/-- A system where the two concrete scripts exist, every filesystem
    operation succeeds, external transform commands exit successfully
    with empty output, and the executed script prints hi. -/
def sysOk : Sys where
  isFile := fun p => p == pathT || p == pathX
  canonicalize := fun p => .ok p
  metadataLen := fun _ => .ok 7
  readFile := fun _ => .ok rawT
  createDir := fun _ => .ok ()
  createFile := fun _ => .ok ()
  readDir := fun _ => .error ()
  runTransform := fun _ _ => .done true []
  runScriptWait := fun _ _ _ => .ok (asciiBytes "hi", [])
  runScriptSpawn := fun _ _ _ => .ok ()
  now := tsNow
  mountEvents := []

/-- Like sysOk, but every external transform command exits non-zero. -/
def sysTFail : Sys := { sysOk with runTransform := fun _ _ => .done false [] }

/-- Like sysOk, but the script file is one byte over the ceiling. -/
def sysBig : Sys := { sysOk with metadataLen := fun _ => .ok 655361 }

/-- Like sysOk, but no path is an existing regular file. -/
def sysNoFile : Sys := { sysOk with isFile := fun _ => false }

/-- A system whose watched directory /d holds a hidden script, an
    eligible script and a subdirectory named sub. -/
def sysDir : Sys := { sysOk with
  isFile := fun _ => false
  readDir := fun p =>
    if p == "/d".toList then
      .ok [⟨".hidden.ha.sh".toList, false⟩, ⟨"a.ha.sh".toList, false⟩, ⟨"sub".toList, true⟩]
    else .error () }

/-- A runner with no decoder and no encoder configured. -/
def rPlain : Runner := ⟨"host".toList, none, none⟩

/-- A runner with only a decoder configured. -/
def rDec : Runner := ⟨"host".toList, some ("dec".toList), none⟩

/-- A runner with only an encoder configured. -/
def rEnc : Runner := ⟨"host".toList, none, some ("enc".toList)⟩

/-- The run directory sysOk produces for the script at pathT. -/
def runDirT : Path := "/d/t-run-2026-01-01-00-00-00".toList

/-- The stdout log file of that run directory. -/
def stdoutLogT : Path := Path.pushComp runDirT ("stdout.log".toList)

/-- The error log file of that run directory. -/
def errorLogT : Path := Path.pushComp runDirT ("error.log".toList)

/-! Helper lemmas about traces and the string primitives. -/

@[simp] theorem invokedPaths_nil : invokedPaths [] = [] := rfl

@[simp] theorem invokedPaths_append (a b : List Event) :
    invokedPaths (a ++ b) = invokedPaths a ++ invokedPaths b :=
  List.filterMap_append a b _

@[simp] theorem shellCwds_nil : shellCwds [] = [] := rfl

@[simp] theorem shellCwds_append (a b : List Event) :
    shellCwds (a ++ b) = shellCwds a ++ shellCwds b :=
  List.filterMap_append a b _

@[simp] theorem appendsTo_nil (p : Path) : appendsTo p [] = false := rfl

@[simp] theorem appendsTo_append (p : Path) (a b : List Event) :
    appendsTo p (a ++ b) = (appendsTo p a || appendsTo p b) :=
  List.any_append

@[simp] theorem invokedPaths_createDir (p : Path) (l : List Event) :
    invokedPaths (Event.createDir p :: l) = invokedPaths l := rfl

@[simp] theorem invokedPaths_createFile (p : Path) (l : List Event) :
    invokedPaths (Event.createFile p :: l) = invokedPaths l := rfl

@[simp] theorem invokedPaths_appendFile (p : Path) (b : Bytes) (l : List Event) :
    invokedPaths (Event.appendFile p b :: l) = invokedPaths l := rfl

@[simp] theorem invokedPaths_writeFile (p : Path) (s : List Char) (l : List Event) :
    invokedPaths (Event.writeFile p s :: l) = invokedPaths l := rfl

@[simp] theorem invokedPaths_transformSpawn (t : List Char) (l : List Event) :
    invokedPaths (Event.transformSpawn t :: l) = invokedPaths l := rfl

@[simp] theorem invokedPaths_shellExec (x : Bytes) (en : List (List Char × List Char))
    (c : Path) (w : Bool) (l : List Event) :
    invokedPaths (Event.shellExec x en c w :: l) = invokedPaths l := rfl

@[simp] theorem invokedPaths_runDirector (p : Path) (l : List Event) :
    invokedPaths (Event.runDirector p :: l) = p :: invokedPaths l := rfl

@[simp] theorem shellCwds_createDir (p : Path) (l : List Event) :
    shellCwds (Event.createDir p :: l) = shellCwds l := rfl

@[simp] theorem shellCwds_createFile (p : Path) (l : List Event) :
    shellCwds (Event.createFile p :: l) = shellCwds l := rfl

@[simp] theorem shellCwds_appendFile (p : Path) (b : Bytes) (l : List Event) :
    shellCwds (Event.appendFile p b :: l) = shellCwds l := rfl

@[simp] theorem shellCwds_writeFile (p : Path) (s : List Char) (l : List Event) :
    shellCwds (Event.writeFile p s :: l) = shellCwds l := rfl

@[simp] theorem shellCwds_transformSpawn (t : List Char) (l : List Event) :
    shellCwds (Event.transformSpawn t :: l) = shellCwds l := rfl

@[simp] theorem shellCwds_shellExec (x : Bytes) (en : List (List Char × List Char))
    (c : Path) (w : Bool) (l : List Event) :
    shellCwds (Event.shellExec x en c w :: l) = c :: shellCwds l := rfl

@[simp] theorem shellCwds_runDirector (p : Path) (l : List Event) :
    shellCwds (Event.runDirector p :: l) = shellCwds l := rfl

@[simp] theorem appendsTo_createDir (p q : Path) (l : List Event) :
    appendsTo p (Event.createDir q :: l) = appendsTo p l := rfl

@[simp] theorem appendsTo_createFile (p q : Path) (l : List Event) :
    appendsTo p (Event.createFile q :: l) = appendsTo p l := rfl

@[simp] theorem appendsTo_appendFile (p q : Path) (b : Bytes) (l : List Event) :
    appendsTo p (Event.appendFile q b :: l) = ((q == p) || appendsTo p l) := rfl

@[simp] theorem appendsTo_writeFile (p q : Path) (s : List Char) (l : List Event) :
    appendsTo p (Event.writeFile q s :: l) = appendsTo p l := rfl

@[simp] theorem appendsTo_transformSpawn (p : Path) (t : List Char) (l : List Event) :
    appendsTo p (Event.transformSpawn t :: l) = appendsTo p l := rfl

@[simp] theorem appendsTo_shellExec (p : Path) (x : Bytes)
    (en : List (List Char × List Char)) (c : Path) (w : Bool) (l : List Event) :
    appendsTo p (Event.shellExec x en c w :: l) = appendsTo p l := rfl

@[simp] theorem appendsTo_runDirector (p q : Path) (l : List Event) :
    appendsTo p (Event.runDirector q :: l) = appendsTo p l := rfl

theorem transform_events (sys : Sys) (input w : Bytes) (tr : Option (List Char)) :
    (Runner.transform sys input w tr).2.2 = [] ∨
      ∃ t, (Runner.transform sys input w tr).2.2 = [Event.transformSpawn t] := by
  cases tr with
  | none => exact Or.inl rfl
  | some t =>
    unfold Runner.transform
    cases h : sys.runTransform t input with
    | spawnErr => simp [h]
    | stdinErr => simp [h]
    | waitErr => simp [h]
    | done s out => cases s <;> simp [h]

theorem invokedPaths_transform (sys : Sys) (input w : Bytes) (tr : Option (List Char))
    (res : Except Error Unit) (out : Bytes) (tevs : List Event)
    (ht : Runner.transform sys input w tr = (res, out, tevs)) :
    invokedPaths tevs = [] := by
  have h := transform_events sys input w tr
  rw [ht] at h
  rcases h with h | ⟨t, h⟩ <;> simp [show tevs = _ from h]

theorem shellCwds_transform (sys : Sys) (input w : Bytes) (tr : Option (List Char))
    (res : Except Error Unit) (out : Bytes) (tevs : List Event)
    (ht : Runner.transform sys input w tr = (res, out, tevs)) :
    shellCwds tevs = [] := by
  have h := transform_events sys input w tr
  rw [ht] at h
  rcases h with h | ⟨t, h⟩ <;> simp [show tevs = _ from h]

theorem appendsTo_transform (p : Path) (sys : Sys) (input w : Bytes)
    (tr : Option (List Char)) (res : Except Error Unit) (out : Bytes) (tevs : List Event)
    (ht : Runner.transform sys input w tr = (res, out, tevs)) :
    appendsTo p tevs = false := by
  have h := transform_events sys input w tr
  rw [ht] at h
  rcases h with h | ⟨t, h⟩ <;> simp [show tevs = _ from h]

theorem parent_ok (s : Script) (par : Path) (hp : Path.parentOf s.path = some par) :
    Script.parent s = .ok par := by
  unfold Script.parent
  rw [hp]

theorem from_file_ok (sys : Sys) (path cpath : Path)
    (hsuf : SCRIPT_SUFFIX <:+ path) (hf : sys.isFile path = true)
    (hc : sys.canonicalize path = .ok cpath) :
    Script.from_file sys path = .ok ⟨cpath⟩ := by
  unfold Script.from_file
  rw [if_neg (not_not_intro hsuf), if_neg (by simp [hf]), hc]

theorem from_file_ok_inv (sys : Sys) (path : Path) (s : Script)
    (h : Script.from_file sys path = .ok s) : sys.canonicalize path = .ok s.path := by
  unfold Script.from_file at h
  by_cases h1 : ¬ SCRIPT_SUFFIX <:+ path
  · rw [if_pos h1] at h
    exact absurd h (by simp)
  · rw [if_neg h1] at h
    by_cases h2 : ¬ sys.isFile path
    · rw [if_pos h2] at h
      exact absurd h (by simp)
    · rw [if_neg h2] at h
      cases hc : sys.canonicalize path with
      | error e => rw [hc] at h; exact absurd h (by simp)
      | ok p =>
        rw [hc] at h
        injection h with h2
        subst h2
        rfl

theorem invokedPaths_writeLog (r : Runner) (sys : Sys) (rd : Path) (fname : List Char)
    (data : Bytes) : invokedPaths (r.writeLog sys rd fname data).2 = [] := by
  by_cases hd : data = []
  · simp [Runner.writeLog, hd]
  · cases hc : sys.createFile (Path.pushComp rd fname) with
    | error e => simp [Runner.writeLog, hd, hc]
    | ok u =>
      rcases ht : Runner.transform sys data [] r.encoder with ⟨res, log, tevs⟩
      have h2 := invokedPaths_transform sys data [] r.encoder res log tevs ht
      cases res with
      | error e => simp [Runner.writeLog, hd, hc, ht, h2]
      | ok u2 => simp [Runner.writeLog, hd, hc, ht, h2]

theorem shellCwds_writeLog (r : Runner) (sys : Sys) (rd : Path) (fname : List Char)
    (data : Bytes) : shellCwds (r.writeLog sys rd fname data).2 = [] := by
  by_cases hd : data = []
  · simp [Runner.writeLog, hd]
  · cases hc : sys.createFile (Path.pushComp rd fname) with
    | error e => simp [Runner.writeLog, hd, hc]
    | ok u =>
      rcases ht : Runner.transform sys data [] r.encoder with ⟨res, log, tevs⟩
      have h2 := shellCwds_transform sys data [] r.encoder res log tevs ht
      cases res with
      | error e => simp [Runner.writeLog, hd, hc, ht, h2]
      | ok u2 => simp [Runner.writeLog, hd, hc, ht, h2]

theorem invokedPaths_run (r : Runner) (sys : Sys) (script : Script) (rd : Path)
    (wait : Bool) : invokedPaths (r.run sys script rd wait).2 = [] := by
  cases hm : sys.metadataLen script.path with
  | error e => simp [Runner.run, hm]
  | ok len =>
    by_cases hl : len > MAX_SCRIPT_SIZE
    · simp [Runner.run, hm, hl]
    · cases hr : sys.readFile script.path with
      | error e => simp [Runner.run, Runner.runAfterSizeCheck, hm, hl, hr]
      | ok raw =>
        rcases ht : Runner.transform sys raw [] r.decoder with ⟨res, buf, devs⟩
        have h2 := invokedPaths_transform sys raw [] r.decoder res buf devs ht
        cases res with
        | error e => simp [Runner.run, Runner.runAfterSizeCheck, hm, hl, hr, ht, h2]
        | ok u =>
          cases hu : utf8Decode buf with
          | none => simp [Runner.run, Runner.runAfterSizeCheck, hm, hl, hr, ht, hu, h2]
          | some text =>
            cases hps : Script.parent script with
            | error e =>
              simp [Runner.run, Runner.runAfterSizeCheck, hm, hl, hr, ht, hu, hps, h2]
            | ok par =>
              cases wait with
              | true =>
                cases hw : sys.runScriptWait text (r.envsFor script rd) par with
                | error e =>
                  simp [Runner.run, Runner.runAfterSizeCheck, hm, hl, hr, ht, hu, hps, hw, h2]
                | ok outs =>
                  rcases outs with ⟨out1, err1⟩
                  rcases h1 : r.writeLog sys rd stdoutLogName out1 with ⟨res1, evs1⟩
                  have h3 := invokedPaths_writeLog r sys rd stdoutLogName out1
                  rw [h1] at h3
                  rcases h2' : r.writeLog sys rd stderrLogName err1 with ⟨res2, evs2⟩
                  have h4 := invokedPaths_writeLog r sys rd stderrLogName err1
                  rw [h2'] at h4
                  simp only at h3 h4
                  cases res1 <;> cases res2 <;>
                    simp [Runner.run, Runner.runAfterSizeCheck, hm, hl, hr, ht, hu, hps, hw,
                      h1, h2', h2, h3, h4]
              | false =>
                cases hs : sys.runScriptSpawn text (r.envsFor script rd) par with
                | error e =>
                  simp [Runner.run, Runner.runAfterSizeCheck, hm, hl, hr, ht, hu, hps, hs, h2]
                | ok u2 =>
                  simp [Runner.run, Runner.runAfterSizeCheck, hm, hl, hr, ht, hu, hps, hs, h2]

theorem shellAll_run (r : Runner) (sys : Sys) (script : Script) (rd par : Path)
    (wait : Bool) (hp : Path.parentOf script.path = some par) :
    ((shellCwds (r.run sys script rd wait).2).all fun c => c == par) = true := by
  have hps := parent_ok script par hp
  cases hm : sys.metadataLen script.path with
  | error e => simp [Runner.run, hm]
  | ok len =>
    by_cases hl : len > MAX_SCRIPT_SIZE
    · simp [Runner.run, hm, hl]
    · cases hr : sys.readFile script.path with
      | error e => simp [Runner.run, Runner.runAfterSizeCheck, hm, hl, hr]
      | ok raw =>
        rcases ht : Runner.transform sys raw [] r.decoder with ⟨res, buf, devs⟩
        have h2 := shellCwds_transform sys raw [] r.decoder res buf devs ht
        cases res with
        | error e => simp [Runner.run, Runner.runAfterSizeCheck, hm, hl, hr, ht, h2]
        | ok u =>
          cases hu : utf8Decode buf with
          | none => simp [Runner.run, Runner.runAfterSizeCheck, hm, hl, hr, ht, hu, h2]
          | some text =>
            cases wait with
            | true =>
              cases hw : sys.runScriptWait text (r.envsFor script rd) par with
              | error e =>
                simp [Runner.run, Runner.runAfterSizeCheck, hm, hl, hr, ht, hu, hps, hw, h2]
              | ok outs =>
                rcases outs with ⟨out1, err1⟩
                rcases h1 : r.writeLog sys rd stdoutLogName out1 with ⟨res1, evs1⟩
                have h3 := shellCwds_writeLog r sys rd stdoutLogName out1
                rw [h1] at h3
                rcases h2' : r.writeLog sys rd stderrLogName err1 with ⟨res2, evs2⟩
                have h4 := shellCwds_writeLog r sys rd stderrLogName err1
                rw [h2'] at h4
                simp only at h3 h4
                cases res1 <;> cases res2 <;>
                  simp [Runner.run, Runner.runAfterSizeCheck, hm, hl, hr, ht, hu, hps, hw,
                    h1, h2', h2, h3, h4]
            | false =>
              cases hs : sys.runScriptSpawn text (r.envsFor script rd) par with
              | error e =>
                simp [Runner.run, Runner.runAfterSizeCheck, hm, hl, hr, ht, hu, hps, hs, h2]
              | ok u2 =>
                simp [Runner.run, Runner.runAfterSizeCheck, hm, hl, hr, ht, hu, hps, hs, h2]

theorem invokedPaths_eval_script (r : Runner) (sys : Sys) (path : Path) (wait : Bool) :
    invokedPaths (r.eval_script sys path wait).2 = [] := by
  cases hff : Script.from_file sys path with
  | error e => simp [Runner.eval_script, hff]
  | ok script =>
    cases hps : Script.parent script with
    | error e => simp [Runner.eval_script, hff, hps]
    | ok par =>
      cases hcd : sys.createDir
          (Path.pushComp par (Script.name script ++ runMarker ++ sys.now)) with
      | error e =>
        simp only [List.append_assoc] at hcd
        simp [Runner.eval_script, hff, hps, hcd]
      | ok u =>
        rcases hrn : r.run sys script
            (Path.pushComp par (Script.name script ++ runMarker ++ sys.now)) wait with
          ⟨res, evs⟩
        have h2 := invokedPaths_run r sys script
          (Path.pushComp par (Script.name script ++ runMarker ++ sys.now)) wait
        rw [hrn] at h2
        simp only at h2
        simp only [List.append_assoc] at hcd hrn
        cases res <;> simp [Runner.eval_script, hff, hps, hcd, hrn, h2]

theorem shellAll_eval_script (r : Runner) (sys : Sys) (path cpath par : Path) (wait : Bool)
    (hc : sys.canonicalize path = .ok cpath) (hp : Path.parentOf cpath = some par) :
    ((shellCwds (r.eval_script sys path wait).2).all fun c => c == par) = true := by
  cases hff : Script.from_file sys path with
  | error e => simp [Runner.eval_script, hff]
  | ok script =>
    have hpath : script.path = cpath := by
      have h := from_file_ok_inv sys path script hff
      rw [hc] at h
      injection h with h2
      exact h2.symm
    have hp2 : Path.parentOf script.path = some par := by rw [hpath]; exact hp
    have hps := parent_ok script par hp2
    cases hcd : sys.createDir
        (Path.pushComp par (Script.name script ++ runMarker ++ sys.now)) with
    | error e =>
      simp only [List.append_assoc] at hcd
      simp [Runner.eval_script, hff, hps, hcd]
    | ok u =>
      rcases hrn : r.run sys script
          (Path.pushComp par (Script.name script ++ runMarker ++ sys.now)) wait with
        ⟨res, evs⟩
      have h2 := shellAll_run r sys script
        (Path.pushComp par (Script.name script ++ runMarker ++ sys.now)) par wait hp2
      rw [hrn] at h2
      simp only at h2
      simp only [List.append_assoc] at hcd hrn
      cases res <;> simp [Runner.eval_script, hff, hps, hcd, hrn, h2]

theorem pushComp_ne_base (b comp : Path) (h : comp ≠ []) : Path.pushComp b comp ≠ b := by
  intro heq
  have hl := congrArg List.length heq
  by_cases hb : b.getLast? = some '/'
  · rw [Path.pushComp, if_pos hb] at hl
    simp [List.length_append] at hl
    exact h hl
  · rw [Path.pushComp, if_neg hb] at hl
    simp [List.length_append] at hl

theorem invokedPaths_sweep (r : Runner) (sys : Sys) (wait : Bool) (ps : List Path) :
    invokedPaths
      ((ps.map (fun p => Event.runDirector p :: (r.eval_script sys p wait).2)).flatten) = ps := by
  induction ps with
  | nil => rfl
  | cons p ps ih => simp [invokedPaths_eval_script, ih]

theorem removeAllGo_skip (pat : List Char) (l : List Char) : ∀ k : Nat,
    removeAllGo pat l k = removeAllGo pat (l.drop k) 0 := by
  induction l with
  | nil => intro k; cases k <;> simp [removeAllGo]
  | cons c rest ih =>
    intro k
    cases k with
    | zero => simp
    | succ k =>
      rw [List.drop_succ_cons, ← ih k]
      rfl

theorem removeAll_eat (pat : List Char) (c : Char) (rest : List Char)
    (hnil : pat ≠ []) (hpre : pat <+: (c :: rest)) :
    removeAll pat (c :: rest) = removeAll pat ((c :: rest).drop pat.length) := by
  obtain ⟨m, hm⟩ : ∃ m, pat.length = m + 1 :=
    ⟨pat.length - 1, (Nat.succ_pred_eq_of_pos (List.length_pos.mpr hnil)).symm⟩
  have h1 : removeAllGo pat (c :: rest) 0 = removeAllGo pat rest (pat.length - 1) := by
    simp only [removeAllGo, if_pos (And.intro hnil hpre)]
  unfold removeAll
  rw [h1, removeAllGo_skip, hm, List.drop_succ_cons]
  simp

theorem removeAll_keep (pat : List Char) (c : Char) (rest : List Char)
    (h : ¬ (pat ≠ [] ∧ pat <+: (c :: rest))) :
    removeAll pat (c :: rest) = c :: removeAll pat rest := by
  simp only [removeAll, removeAllGo, if_neg h]

theorem dropLast_append_left (pat : List Char) (h : pat ≠ []) :
    ∀ xs : List Char, (xs ++ pat).dropLast = xs ++ pat.dropLast := by
  intro xs
  induction xs with
  | nil => simp
  | cons a xs ih =>
    have hne : xs ++ pat ≠ [] := by simp [h]
    cases hxp : xs ++ pat with
    | nil => exact absurd hxp hne
    | cons b l =>
      rw [List.cons_append, hxp, List.dropLast_cons₂, ← hxp, ih, List.cons_append]

theorem removeAll_trailing (pat : List Char) (hnil : pat ≠ []) :
    ∀ stem : List Char, ¬ pat <:+: (stem ++ pat.dropLast) →
      removeAll pat (stem ++ pat) = stem := by
  intro stem
  induction stem with
  | nil =>
    intro _
    cases pat with
    | nil => exact absurd rfl hnil
    | cons c rest =>
      rw [List.nil_append,
        removeAll_eat (c :: rest) c rest hnil (List.prefix_refl _), List.drop_length]
      rfl
  | cons a st ih =>
    intro hocc
    have hne2 : (a :: st) ++ pat ≠ [] := by simp
    have hnp : ¬ pat <+: ((a :: st) ++ pat) := by
      intro hp
      apply hocc
      have hdl : ((a :: st) ++ pat).dropLast = (a :: st) ++ pat.dropLast :=
        dropLast_append_left pat hnil (a :: st)
      have hdp : ((a :: st) ++ pat).dropLast <+: ((a :: st) ++ pat) :=
        ⟨[((a :: st) ++ pat).getLast hne2], List.dropLast_append_getLast hne2⟩
      have hlp := List.length_pos.mpr hnil
      have hlen : pat.length ≤ (((a :: st) ++ pat).dropLast).length := by
        rw [hdl]
        simp only [List.length_append, List.length_cons, List.length_dropLast]
        omega
      have hp2 : pat <+: ((a :: st) ++ pat).dropLast :=
        List.prefix_of_prefix_length_le hp hdp hlen
      rw [hdl] at hp2
      obtain ⟨t, ht⟩ := hp2
      exact ⟨[], t, by simpa using ht⟩
    have hocc2 : ¬ pat <:+: (st ++ pat.dropLast) := by
      rintro ⟨s, t, hst⟩
      exact hocc ⟨a :: s, t, by simpa using congrArg (List.cons a) hst⟩
    have hkeep : ¬ (pat ≠ [] ∧ pat <+: (a :: (st ++ pat))) := by
      rintro ⟨_, hp⟩
      exact hnp (by simpa using hp)
    rw [List.cons_append, removeAll_keep pat a (st ++ pat) hkeep, ih hocc2]

theorem eval_script_from_file_error (r : Runner) (sys : Sys) (path : Path) (e : Error)
    (wait : Bool) (hff : Script.from_file sys path = .error e) :
    r.eval_script sys path wait = (.error e, []) := by
  simp [Runner.eval_script, hff]

theorem eval_script_run_error (r : Runner) (sys : Sys) (path cpath par : Path) (e : Error)
    (evs : List Event) (wait : Bool)
    (hsuf : SCRIPT_SUFFIX <:+ path) (hf : sys.isFile path = true)
    (hc : sys.canonicalize path = .ok cpath) (hp : Path.parentOf cpath = some par)
    (hcd : sys.createDir
      (Path.pushComp par (Script.name ⟨cpath⟩ ++ runMarker ++ sys.now)) = .ok ())
    (hrun : r.run sys ⟨cpath⟩
      (Path.pushComp par (Script.name ⟨cpath⟩ ++ runMarker ++ sys.now)) wait = (.error e, evs)) :
    r.eval_script sys path wait = (.ok (),
      Event.createDir (Path.pushComp par (Script.name ⟨cpath⟩ ++ runMarker ++ sys.now)) ::
        evs ++ [Event.writeFile
          (Path.pushComp (Path.pushComp par (Script.name ⟨cpath⟩ ++ runMarker ++ sys.now))
            errorLogName) e.display]) := by
  have hff := from_file_ok sys path cpath hsuf hf hc
  have hps := parent_ok ⟨cpath⟩ par hp
  simp only [List.append_assoc] at hcd hrun
  simp [Runner.eval_script, hff, hps, hcd, hrun]

theorem start_isFile (r : Runner) (sys : Sys) (path : Path) (watch : Bool)
    (hf : sys.isFile path = true) :
    Runner.start r sys path watch = r.eval_script sys path true := by
  simp [Runner.start, hf]

/-! Claim theorems. -/

/-- Claim C5: for every script whose file size exceeds 655360 bytes,
    Runner::run fails with unsupportedScript and performs no event at
    all (in particular no shell execution), while a script of size at
    most 655360 bytes is not rejected by this check: the run proceeds
    exactly as the body after the size guard. -/
theorem c5_size_limit (r : Runner) (sys : Sys) (script : Script) (rd : Path) (wait : Bool)
    (len : Nat) (h : sys.metadataLen script.path = .ok len) :
    (len > MAX_SCRIPT_SIZE →
      r.run sys script rd wait = (.error (.unsupportedScript script.path), [])) ∧
    (len ≤ MAX_SCRIPT_SIZE →
      r.run sys script rd wait = r.runAfterSizeCheck sys script rd wait) := by
  constructor
  · intro hl
    simp [Runner.run, h, hl]
  · intro hl
    simp [Runner.run, h, Nat.not_lt.mpr hl]

/-- Witness for C5 at concrete inputs: an oversized script is rejected
    with no events, and a 7-byte script passes the guard. -/
theorem c5_size_limit_witness :
    Runner.run rPlain sysBig ⟨pathT⟩ runDirT true = (.error (.unsupportedScript pathT), []) ∧
    Runner.run rPlain sysOk ⟨pathT⟩ runDirT true =
      Runner.runAfterSizeCheck rPlain sysOk ⟨pathT⟩ runDirT true :=
  ⟨(c5_size_limit rPlain sysBig ⟨pathT⟩ runDirT true 655361 rfl).1 (by decide),
   (c5_size_limit rPlain sysOk ⟨pathT⟩ runDirT true 7 rfl).2 (by decide)⟩

/-- Claim C6: a configured transform command that runs to completion
    copies its standard output to the sink exactly when it exits
    successfully; on a non-zero exit the pipeline returns
    transformFailed and the sink is unchanged. -/
theorem c6_transform_failure (sys : Sys) (input writer : Bytes) (t : List Char) (s : Bool)
    (out : Bytes) (h : sys.runTransform t input = .done s out) :
    Runner.transform sys input writer (some t) =
      if s then (.ok (), writer ++ out, [Event.transformSpawn t])
      else (.error .transformFailed, writer, [Event.transformSpawn t]) := by
  simp only [Runner.transform]
  rw [h]

/-- Witness for C6 at concrete inputs: a failing command leaves the
    sink untouched, a succeeding one appends its output. -/
theorem c6_transform_failure_witness :
    Runner.transform sysTFail (asciiBytes "hi") (asciiBytes "AB") (some ("enc".toList)) =
      (.error .transformFailed, asciiBytes "AB", [Event.transformSpawn ("enc".toList)]) ∧
    Runner.transform sysOk (asciiBytes "hi") (asciiBytes "AB") (some ("enc".toList)) =
      (.ok (), asciiBytes "AB" ++ [], [Event.transformSpawn ("enc".toList)]) :=
  ⟨c6_transform_failure sysTFail (asciiBytes "hi") (asciiBytes "AB") ("enc".toList) false [] rfl,
   c6_transform_failure sysOk (asciiBytes "hi") (asciiBytes "AB") ("enc".toList) true [] rfl⟩

/-- Claim C7: with no decoder configured the bytes delivered to the
    shell as the command line are byte-identical to the script file's
    raw contents (given they are valid UTF-8), in wait mode and in
    no-wait mode alike. -/
theorem c7_decode_passthrough (sys : Sys) (r : Runner) (cpath rd par : Path) (len : Nat)
    (raw out1 err1 : Bytes)
    (hdec : r.decoder = none)
    (hlen : sys.metadataLen cpath = .ok len) (hsz : len ≤ MAX_SCRIPT_SIZE)
    (hread : sys.readFile cpath = .ok raw) (hutf : utf8Valid raw = true)
    (hp : Path.parentOf cpath = some par)
    (hw : sys.runScriptWait raw (r.envsFor ⟨cpath⟩ rd) par = .ok (out1, err1))
    (hs : sys.runScriptSpawn raw (r.envsFor ⟨cpath⟩ rd) par = .ok ()) :
    Event.shellExec raw (r.envsFor ⟨cpath⟩ rd) par true ∈ (r.run sys ⟨cpath⟩ rd true).2 ∧
    Event.shellExec raw (r.envsFor ⟨cpath⟩ rd) par false ∈ (r.run sys ⟨cpath⟩ rd false).2 := by
  have hps := parent_ok ⟨cpath⟩ par hp
  have hnl : ¬ len > MAX_SCRIPT_SIZE := Nat.not_lt.mpr hsz
  constructor
  · rcases h1 : r.writeLog sys rd stdoutLogName out1 with ⟨res1, evs1⟩
    rcases h2 : r.writeLog sys rd stderrLogName err1 with ⟨res2, evs2⟩
    cases res1 <;> cases res2 <;>
      simp [Runner.run, Runner.runAfterSizeCheck, hlen, hnl, hread, Runner.transform, hdec,
        utf8Decode, hutf, hps, hw, h1, h2]
  · simp [Runner.run, Runner.runAfterSizeCheck, hlen, hnl, hread, Runner.transform, hdec,
      utf8Decode, hutf, hps, hs]

/-- Witness for C7 at concrete inputs: the shell receives exactly the
    raw bytes of the 7-byte script. -/
theorem c7_decode_passthrough_witness :
    Event.shellExec rawT (Runner.envsFor rPlain ⟨pathT⟩ runDirT) ("/d".toList) true
        ∈ (Runner.run rPlain sysOk ⟨pathT⟩ runDirT true).2 ∧
    Event.shellExec rawT (Runner.envsFor rPlain ⟨pathT⟩ runDirT) ("/d".toList) false
        ∈ (Runner.run rPlain sysOk ⟨pathT⟩ runDirT false).2 :=
  c7_decode_passthrough sysOk rPlain pathT runDirT ("/d".toList) 7 rawT (asciiBytes "hi") []
    rfl rfl (by decide) rfl (by decide) (by decide) rfl rfl

/-- Claim C8: a path that does not end in the script suffix is rejected
    by Script::from_file with unsupportedScript for every system state,
    so the suffix check takes precedence and such a path is never
    reported as scriptNotFound even when it does not exist. -/
theorem c8_suffix_precedence (sys : Sys) (path : Path)
    (h : ¬ SCRIPT_SUFFIX <:+ path) :
    Script.from_file sys path = .error (.unsupportedScript path) := by
  unfold Script.from_file
  rw [if_pos h]

/-- Witness for C8 at a concrete input: a txt file that does not even
    exist is still reported as unsupported, not as not found. -/
theorem c8_suffix_precedence_witness :
    Script.from_file sysNoFile ("/d/a.txt".toList) =
      .error (.unsupportedScript ("/d/a.txt".toList)) ∧
    sysNoFile.isFile ("/d/a.txt".toList) = false :=
  ⟨c8_suffix_precedence sysNoFile ("/d/a.txt".toList) (by decide), rfl⟩

/-- Claim C2 (counterexample): two mount events 1500 milliseconds apart
    are more than one second apart, yet the debounce loop triggers only
    one sweep, because the gate compares whole elapsed seconds with 1;
    the claimed general law fails at the same input, as the second
    timestamp is more than one second after the first yet triggers
    nothing. -/
theorem c2_debounce_counterexample :
    (1500 - 0 > 1000) ∧ sweepCount none [0, 1500] = 1 ∧
    (debounceStep (some 0) 1500).2 = false := by decide

/-- Claim C2 (amended): a sweep is triggered exactly when no prior
    triggering timestamp exists or the truncated whole-second gap
    exceeds 1, i.e. the new timestamp is at least two seconds after the
    last triggering one; hence two events less than one second apart
    trigger one sweep and two events at least two seconds apart trigger
    two sweeps. -/
theorem c2_debounce_amended :
    (∀ l ts : Nat, (debounceStep (some l) ts).2 = true ↔ l + 2000 ≤ ts) ∧
    (∀ ts : Nat, (debounceStep none ts).2 = true) ∧
    (∀ t1 t2 : Nat, t2 - t1 < 1000 → sweepCount none [t1, t2] = 1) ∧
    (∀ t1 t2 : Nat, t1 + 2000 ≤ t2 → sweepCount none [t1, t2] = 2) := by
  have h1000 : (0:Nat) < 1000 := by norm_num
  refine ⟨?_, ?_, ?_, ?_⟩
  · intro l ts
    simp only [debounceStep]
    by_cases hgt : (ts - l) / 1000 > 1
    · rw [if_pos hgt]
      constructor
      · intro _
        have h2 : 2 * 1000 ≤ ts - l := (Nat.le_div_iff_mul_le h1000).mp hgt
        omega
      · intro _
        rfl
    · rw [if_neg hgt]
      constructor
      · intro hfalse
        exact absurd hfalse (by simp)
      · intro h
        exfalso
        apply hgt
        exact (Nat.le_div_iff_mul_le h1000).mpr (by omega)
  · intro ts
    rfl
  · intro t1 t2 h
    have hdiv : (t2 - t1) / 1000 = 0 := Nat.div_eq_of_lt h
    simp [sweepCount, debounceStep, hdiv]
  · intro t1 t2 h
    have hdiv : 1 < (t2 - t1) / 1000 :=
      (Nat.le_div_iff_mul_le h1000).mpr (by omega)
    simp [sweepCount, debounceStep, hdiv]

/-- Witness for the amended C2 at concrete inputs: 500 milliseconds
    apart gives one sweep, 2500 milliseconds apart gives two. -/
theorem c2_debounce_amended_witness :
    sweepCount none [0, 500] = 1 ∧ sweepCount none [0, 2500] = 2 :=
  ⟨c2_debounce_amended.2.2.1 0 500 (by norm_num),
   c2_debounce_amended.2.2.2 0 2500 (by norm_num)⟩

/-- Claim C1 (counterexample): in a fully successful wait-mode run the
    working directory of the spawned shell is the script's parent
    directory, which differs from the run directory created for the
    same run. -/
theorem c1_cwd_counterexample :
    Event.shellExec rawT (Runner.envsFor rPlain ⟨pathT⟩ runDirT) ("/d".toList) true
        ∈ (Runner.eval_script rPlain sysOk pathT true).2 ∧
    Event.createDir runDirT ∈ (Runner.eval_script rPlain sysOk pathT true).2 ∧
    ("/d".toList : Path) ≠ runDirT := by decide

/-- Claim C1 (amended): for every script executed, in wait and no-wait
    mode alike, every shell execution in the trace uses the script's
    parent directory as the working directory, and the run directory
    (exposed to the script through HASH_RUN_DIR instead) is always
    distinct from that working directory. -/
theorem c1_cwd_amended (r : Runner) (sys : Sys) (path cpath par : Path) (wait : Bool)
    (hc : sys.canonicalize path = .ok cpath) (hp : Path.parentOf cpath = some par) :
    ((shellCwds (r.eval_script sys path wait).2).all fun c => c == par) = true ∧
    Path.pushComp par (Script.name ⟨cpath⟩ ++ runMarker ++ sys.now) ≠ par :=
  ⟨shellAll_eval_script r sys path cpath par wait hc hp,
   pushComp_ne_base par _ (by simp [runMarker])⟩

/-- Witness for the amended C1 at concrete inputs. -/
theorem c1_cwd_amended_witness :
    ((shellCwds (Runner.eval_script rPlain sysOk pathT true).2).all
        fun c => c == "/d".toList) = true ∧
    Path.pushComp ("/d".toList) (Script.name ⟨pathT⟩ ++ runMarker ++ sysOk.now)
      ≠ "/d".toList :=
  c1_cwd_amended rPlain sysOk pathT pathT ("/d".toList) true rfl (by decide)

/-- Claim C3 (counterexample): a decode failure in a single-file
    invocation happens after the run directory was created and is
    recorded in error.log, yet the process exit code is zero, not
    non-zero as claimed. -/
theorem c3_exit_counterexample :
    mainExitCode (Runner.start rDec sysTFail pathT false) = 0 ∧
    Event.createDir runDirT ∈ (Runner.start rDec sysTFail pathT false).2 ∧
    Event.writeFile errorLogT (Error.display .transformFailed)
        ∈ (Runner.start rDec sysTFail pathT false).2 := by decide

/-- Claim C3 (amended): in a single-file invocation, a failure of the
    execution attempt that occurs after the run directory was created
    does not propagate: the diagnostic is written to error.log inside
    the run directory and the process exits zero. -/
theorem c3_exit_amended (r : Runner) (sys : Sys) (path cpath par : Path) (e : Error)
    (evs : List Event) (watch : Bool)
    (hf : sys.isFile path = true) (hsuf : SCRIPT_SUFFIX <:+ path)
    (hc : sys.canonicalize path = .ok cpath) (hp : Path.parentOf cpath = some par)
    (hcd : sys.createDir
      (Path.pushComp par (Script.name ⟨cpath⟩ ++ runMarker ++ sys.now)) = .ok ())
    (hrun : r.run sys ⟨cpath⟩
      (Path.pushComp par (Script.name ⟨cpath⟩ ++ runMarker ++ sys.now)) true =
        (.error e, evs)) :
    Runner.start r sys path watch = (.ok (),
      Event.createDir (Path.pushComp par (Script.name ⟨cpath⟩ ++ runMarker ++ sys.now)) ::
        evs ++ [Event.writeFile
          (Path.pushComp (Path.pushComp par (Script.name ⟨cpath⟩ ++ runMarker ++ sys.now))
            errorLogName) e.display]) ∧
    mainExitCode (Runner.start r sys path watch) = 0 := by
  have h1 := start_isFile r sys path watch hf
  have h2 := eval_script_run_error r sys path cpath par e evs true hsuf hf hc hp hcd hrun
  rw [h1, h2]
  exact ⟨rfl, rfl⟩

/-- Witness for the amended C3 at concrete inputs: the failing decoder
    leaves error.log and a zero exit. -/
theorem c3_exit_amended_witness :
    Runner.start rDec sysTFail pathT false = (.ok (),
      Event.createDir
          (Path.pushComp ("/d".toList) (Script.name ⟨pathT⟩ ++ runMarker ++ sysTFail.now)) ::
        [Event.transformSpawn ("dec".toList)] ++ [Event.writeFile
          (Path.pushComp
            (Path.pushComp ("/d".toList) (Script.name ⟨pathT⟩ ++ runMarker ++ sysTFail.now))
            errorLogName) (Error.display .transformFailed)]) ∧
    mainExitCode (Runner.start rDec sysTFail pathT false) = 0 :=
  c3_exit_amended rDec sysTFail pathT pathT ("/d".toList) .transformFailed
    [Event.transformSpawn ("dec".toList)] false rfl (by decide) rfl (by decide)
    (by decide) (by decide)

/-- Claim C4 (counterexample): the sweep of a directory holding a
    subdirectory named sub invokes the Run Director on that
    subdirectory, so subdirectories are not excluded from the sweep. -/
theorem c4_sweep_counterexample :
    sysDir.readDir ("/d".toList) =
      .ok [⟨".hidden.ha.sh".toList, false⟩, ⟨"a.ha.sh".toList, false⟩,
        ⟨"sub".toList, true⟩] ∧
    Event.runDirector ("/d/sub".toList)
        ∈ (Runner.eval_dir rPlain sysDir ("/d".toList) true).2 := by decide

/-- Claim C4 (amended): during a sweep the Run Director is invoked
    exactly once, in listing order, for every immediate entry whose
    name does not start with a dot — including subdirectories, which
    are passed along and only fail validation inside the Run Director;
    hidden entries are never passed. -/
theorem c4_sweep_amended (r : Runner) (sys : Sys) (dir : Path) (wait : Bool)
    (entries : List DirEntry) (h : sys.readDir dir = .ok entries) :
    invokedPaths (r.eval_dir sys dir wait).2 =
      (entries.filter (fun e => ! hiddenName e.name)).map
        (fun e => Path.pushComp dir e.name) := by
  simp only [Runner.eval_dir, h]
  exact invokedPaths_sweep r sys wait _

/-- Witness for the amended C4 at concrete inputs: the hidden entry is
    skipped, the eligible script and the subdirectory are each passed
    exactly once. -/
theorem c4_sweep_amended_witness :
    invokedPaths (Runner.eval_dir rPlain sysDir ("/d".toList) true).2 =
      ["/d/a.ha.sh".toList, "/d/sub".toList] :=
  (c4_sweep_amended rPlain sysDir ("/d".toList) true
    [⟨".hidden.ha.sh".toList, false⟩, ⟨"a.ha.sh".toList, false⟩, ⟨"sub".toList, true⟩]
    rfl).trans (by decide)

/-- Claim C9 (counterexample): a validated script whose file name
    contains the suffix twice gets the logical name with every
    occurrence removed, not only the trailing suffix: the name of
    x.ha.sh.ha.sh is x, not x.ha.sh. -/
theorem c9_name_counterexample :
    Script.from_file sysOk pathX = .ok ⟨pathX⟩ ∧
    Path.fileName pathX = "x.ha.sh".toList ++ SCRIPT_SUFFIX ∧
    Script.name ⟨pathX⟩ = "x".toList ∧
    Script.name ⟨pathX⟩ ≠ "x.ha.sh".toList := by decide

/-- Claim C9 (amended): the logical name removes every occurrence of
    the suffix from the file name (str replace semantics); whenever the
    suffix occurs only at the end of the file name, this coincides with
    stripping the trailing suffix. -/
theorem c9_name_amended (sys : Sys) (path cpath stem : Path)
    (hsuf : SCRIPT_SUFFIX <:+ path) (hf : sys.isFile path = true)
    (hc : sys.canonicalize path = .ok cpath)
    (hname : Path.fileName cpath = stem ++ SCRIPT_SUFFIX)
    (hocc : ¬ SCRIPT_SUFFIX <:+: (stem ++ SCRIPT_SUFFIX.dropLast)) :
    Script.from_file sys path = .ok ⟨cpath⟩ ∧ Script.name ⟨cpath⟩ = stem := by
  refine ⟨from_file_ok sys path cpath hsuf hf hc, ?_⟩
  show removeAll SCRIPT_SUFFIX (Path.fileName cpath) = stem
  rw [hname]
  exact removeAll_trailing SCRIPT_SUFFIX (by decide) stem hocc

/-- Witness for the amended C9 at concrete inputs: the name of t.ha.sh
    is t. -/
theorem c9_name_amended_witness :
    Script.from_file sysOk pathT = .ok ⟨pathT⟩ ∧ Script.name ⟨pathT⟩ = "t".toList :=
  c9_name_amended sysOk pathT pathT ("t".toList) (by decide) rfl rfl (by decide) (by decide)

/-- Claim C10: in wait mode with an encoder configured, a non-empty
    captured stream's log file is created in the run directory strictly
    before the encoder is invoked; if the encoder exits non-zero the
    run fails with transformFailed, nothing is ever appended to that
    log file (it remains empty), and error.log is written next to it,
    so an output encoding failure does not leave the run directory
    unchanged. -/
theorem c10_log_before_encoder (r : Runner) (sys : Sys) (path cpath par rd slog : Path)
    (enc : List Char) (len : Nat) (raw buf z out1 err1 : Bytes) (devs : List Event)
    (henc : r.encoder = some enc)
    (hsuf : SCRIPT_SUFFIX <:+ path) (hf : sys.isFile path = true)
    (hc : sys.canonicalize path = .ok cpath) (hp : Path.parentOf cpath = some par)
    (hrd : rd = Path.pushComp par (Script.name ⟨cpath⟩ ++ runMarker ++ sys.now))
    (hslog : slog = Path.pushComp rd stdoutLogName)
    (hcd : sys.createDir rd = .ok ())
    (hlen : sys.metadataLen cpath = .ok len) (hsz : len ≤ MAX_SCRIPT_SIZE)
    (hread : sys.readFile cpath = .ok raw)
    (hdecT : Runner.transform sys raw [] r.decoder = (.ok (), buf, devs))
    (hutf : utf8Valid buf = true)
    (hw : sys.runScriptWait buf (r.envsFor ⟨cpath⟩ rd) par = .ok (out1, err1))
    (hne : out1 ≠ [])
    (hcf : sys.createFile slog = .ok ())
    (htf : sys.runTransform enc out1 = .done false z) :
    r.eval_script sys path true = (.ok (),
      Event.createDir rd :: devs ++
        [Event.shellExec buf (r.envsFor ⟨cpath⟩ rd) par true,
         Event.createFile slog, Event.transformSpawn enc,
         Event.writeFile (Path.pushComp rd errorLogName) (Error.display .transformFailed)]) ∧
    appendsTo slog (r.eval_script sys path true).2 = false := by
  subst hrd
  subst hslog
  have hwl : r.writeLog sys
      (Path.pushComp par (Script.name ⟨cpath⟩ ++ runMarker ++ sys.now)) stdoutLogName out1 =
      (.error .transformFailed,
        [Event.createFile (Path.pushComp
            (Path.pushComp par (Script.name ⟨cpath⟩ ++ runMarker ++ sys.now)) stdoutLogName),
         Event.transformSpawn enc]) := by
    have hcf2 := hcf
    simp only [List.append_assoc] at hcf2
    simp [Runner.writeLog, hne, hcf2, Runner.transform, henc, htf]
  have hps := parent_ok ⟨cpath⟩ par hp
  have hnl : ¬ len > MAX_SCRIPT_SIZE := Nat.not_lt.mpr hsz
  have hda := appendsTo_transform
    (Path.pushComp (Path.pushComp par (Script.name ⟨cpath⟩ ++ runMarker ++ sys.now))
      stdoutLogName) sys raw [] r.decoder _ _ _ hdecT
  have hrun : r.run sys ⟨cpath⟩
      (Path.pushComp par (Script.name ⟨cpath⟩ ++ runMarker ++ sys.now)) true =
      (.error .transformFailed,
        devs ++ [Event.shellExec buf
            (r.envsFor ⟨cpath⟩
              (Path.pushComp par (Script.name ⟨cpath⟩ ++ runMarker ++ sys.now))) par true,
          Event.createFile (Path.pushComp
            (Path.pushComp par (Script.name ⟨cpath⟩ ++ runMarker ++ sys.now)) stdoutLogName),
          Event.transformSpawn enc]) := by
    have hw2 := hw
    simp only [List.append_assoc] at hw2 hwl ⊢
    simp [Runner.run, Runner.runAfterSizeCheck, hlen, hnl, hread, hdecT, utf8Decode, hutf,
      hps, hw2, hwl]
  have hes := eval_script_run_error r sys path cpath par .transformFailed _ true hsuf hf hc hp
    hcd hrun
  rw [hes]
  constructor
  · simp [List.append_assoc]
  · simp only [List.append_assoc] at hda
    simp [hda]

/-- Witness for C10 at concrete inputs: the failing encoder leaves the
    empty stdout.log created before its invocation, together with
    error.log. -/
theorem c10_log_before_encoder_witness :
    Runner.eval_script rEnc sysTFail pathT true = (.ok (),
      Event.createDir runDirT :: [] ++
        [Event.shellExec rawT (Runner.envsFor rEnc ⟨pathT⟩ runDirT) ("/d".toList) true,
         Event.createFile stdoutLogT, Event.transformSpawn ("enc".toList),
         Event.writeFile (Path.pushComp runDirT errorLogName)
           (Error.display .transformFailed)]) ∧
    appendsTo stdoutLogT (Runner.eval_script rEnc sysTFail pathT true).2 = false :=
  c10_log_before_encoder rEnc sysTFail pathT pathT ("/d".toList) runDirT stdoutLogT
    ("enc".toList) 7 rawT rawT [] (asciiBytes "hi") [] []
    rfl (by decide) rfl rfl (by decide) (by decide) rfl rfl rfl (by decide) rfl rfl
    (by decide) rfl (by decide) rfl rfl

end HashRunner
